import Mathlib

/-!
Verification development for the DagsHub client repository.

This file shallowly embeds the parts of the code that the claims are about:

* `src/dagshub/streaming/filesystem.py` — the `DagsHubFilesystem` class:
  `_relative_path`, `_passthrough_path`, `_special_file`, `open`, `stat`,
  `listdir`, `_mkdirs`, `install_hooks`, `uninstall_hooks`, and the
  `dagshub_stat_result` helper.
* `src/dagshub/auth/tokens.py` — the `TokenStorage` class:
  `get_token_object`, `is_valid_token`, `remove_expired_tokens`,
  `_token_cache` and `_store_cache_file`.

Paths are modelled as lists of name components plus an absolute flag
(mirroring `pathlib.Path`; `..` and `.` components are assumed already
normalised, as `Path.resolve` would do).  Bytes payloads are modelled as
`String`.  The local on-disk state is a finite association list of files
plus a list of directories.  Remote HTTP calls are modelled as pure
functions fixed per mount (the mount revision is fixed, and the source
remote API is idempotent per revision), returning either an HTTP response
with a status code or a transport-level error (a `requests` exception).
-/

namespace DagsHub

/-- A pathlib-style path: absolute flag plus name components. -/
structure MPath where
  isAbs : Bool
  comps : List String
deriving DecidableEq, Repr

/-- String rendering of a relative path, as Python `str(Path(...))`:
the empty relative path renders as `"."`. -/
def relStr (rel : List String) : String :=
  if rel = [] then "." else String.intercalate "/" rel

/-- String rendering of a path, as Python `str(Path(...))`. -/
def pathStr (p : MPath) : String :=
  if p.isAbs then "/" ++ String.intercalate "/" p.comps else relStr p.comps

/-- Resolve a path against an absolute working directory, as
`Path(file).resolve()` does (components assumed normalised). -/
def resolveP (cwd : List String) (p : MPath) : List String :=
  if p.isAbs then p.comps else cwd ++ p.comps

/-- Result of `requests.get` on the raw-content endpoint
(`_api_download_file_git`): an HTTP response with a status code and body,
or a transport-level exception raised by the HTTP library. -/
inductive FetchResult
  | resp (status : Nat) (content : String)
  | transportError

/-- One entry of the JSON body returned by the content-listing endpoint:
the code takes `Path(f["path"]).name` and `f["type"] == "dir"`, so we keep
the basename and the directory flag. -/
structure RemoteEntry where
  name : String
  isDir : Bool
deriving DecidableEq, Repr

/-- Result of `requests.get` on the content-listing endpoint
(`_api_listdir`). -/
inductive ListResult
  | resp (status : Nat) (entries : List RemoteEntry)
  | transportError

/-- The per-mount configuration of a `DagsHubFilesystem` instance:
`project_root` (absolute components) and the behaviour of the two remote
endpoints at the mount revision. -/
structure FSConfig where
  root : List String
  remoteRaw : List String → FetchResult
  remoteList : List String → ListResult

/-- The local on-disk state shared by all mounts: regular files (path to
contents association list, later bindings shadow earlier ones) and the
set of directories. -/
structure GlobalFS where
  files : List (List String × String)
  dirs : List (List String)
deriving DecidableEq, Repr

/-- Contents of a local file, if present. -/
def lookupFile (g : GlobalFS) (p : List String) : Option String :=
  g.files.lookup p

/-- Local `os.stat` success condition: the path is a file or a directory. -/
def localExists (g : GlobalFS) (p : List String) : Bool :=
  (lookupFile g p).isSome || decide (p ∈ g.dirs)

/-- Write a file locally (the materialization write in `open`). -/
def fsWrite (g : GlobalFS) (p : List String) (c : String) : GlobalFS :=
  { g with files := (p, c) :: g.files }

/-- The name of the sentinel file, `SPECIAL_FILE = Path(".dagshub-streaming")`. -/
def specialName : String := ".dagshub-streaming"

/-- The sentinel payload, `DagsHubFilesystem._special_file`, returning the
constant bytes `b"v0\n"`. -/
def specialFile : String := "v0\n"

/-- String prefix test, extensionally `String.startsWith`, written over the
character lists so it evaluates inside the kernel. -/
def strStartsWith (s pre : String) : Bool :=
  pre.data.isPrefixOf s.data

/-- `DagsHubFilesystem._relative_path`: resolve the argument and take it
relative to the project root; paths outside the root (and resolved paths
whose rendering starts with `<`) give `None`. -/
def relativePath (fs : FSConfig) (cwd : List String) (file : MPath) : Option (List String) :=
  let r := resolveP cwd file
  if fs.root.isPrefixOf r then
    let rel := r.drop fs.root.length
    if strStartsWith (relStr rel) "<" then none else some rel
  else none

/-- `DagsHubFilesystem._passthrough_path`: does the relative path render to
a string starting with `.git/` or `.dvc/`. -/
def passthroughPath (rel : List String) : Bool :=
  strStartsWith (relStr rel) ".git/" || strStartsWith (relStr rel) ".dvc/"

/-- Outcome of the patched `open`. -/
inductive OpenOutcome
  | ok (content : String)
  | notImplemented
  | fileNotFound
  | isDirErr
  | transportErr
deriving DecidableEq, Repr

/-- Local read-mode open attempt: contents on success, `IsADirectoryError`
for a directory, `FileNotFoundError` otherwise. -/
def localOpenRead (g : GlobalFS) (p : List String) : OpenOutcome :=
  match lookupFile g p with
  | some c => .ok c
  | none => if p ∈ g.dirs then .isDirErr else .fileNotFound

/-- One step of `_mkdirs`: `try: stat(p) except: os.mkdir(p)` — the
directory is created exactly when the path exists neither as a file nor as
a directory. -/
def mkdirStep (files : List (List String × String)) (ds : List (List String))
    (p : List String) : List (List String) :=
  if files.lookup p = none ∧ p ∉ ds then ds ++ [p] else ds

/-- `DagsHubFilesystem._mkdirs(rel, dir_fd=project_root_fd)`: walk
`list(rel.parents)[::-1]` and then `rel` itself, creating each missing
path under the project root (top-down prefixes of `rel`). -/
def mkdirsUnder (g : GlobalFS) (root : List String) (rel : List String) : GlobalFS :=
  let paths := (List.range (rel.length + 1)).map (fun k => root ++ rel.take k)
  { g with dirs := paths.foldl (mkdirStep g.files) g.dirs }

/-- `DagsHubFilesystem.open` for a read mode.  The boolean in the result
records whether a network request was issued.  Following the source:
a non-`None` opener raises `NotImplementedError` at once; a path outside
the mount is passed through to the saved original open; `.git/`/`.dvc/`
paths open locally under the project root; the sentinel path returns an
in-memory `BytesIO` of the constant payload; otherwise the local open is
attempted and on `FileNotFoundError` the raw endpoint is queried — an ok
response is materialized with `_mkdirs` on the parent plus a local write
and the file is reopened, any other response raises `FileNotFoundError`,
and a transport exception propagates. -/
def fsOpen (fs : FSConfig) (g : GlobalFS) (cwd : List String) (file : MPath)
    (opener : Option Unit) : OpenOutcome × GlobalFS × Bool :=
  match opener with
  | some _ => (.notImplemented, g, false)
  | none =>
    match relativePath fs cwd file with
    | some rel =>
      if passthroughPath rel then
        (localOpenRead g (fs.root ++ rel), g, false)
      else if rel = [specialName] then
        (.ok specialFile, g, false)
      else
        match localOpenRead g (fs.root ++ rel) with
        | .ok c => (.ok c, g, false)
        | .isDirErr => (.isDirErr, g, false)
        | _ =>
          match fs.remoteRaw rel with
          | .transportError => (.transportErr, g, true)
          | .resp status content =>
            if status < 400 then
              let g1 := mkdirsUnder g fs.root rel.dropLast
              let g2 := fsWrite g1 (fs.root ++ rel) content
              (.ok content, g2, true)
            else
              (.fileNotFound, g, true)
    | none =>
      (localOpenRead g (resolveP cwd file), g, false)

/-- Outcome of the patched `stat`.  `typeErr` models the `TypeError`
raised by the sentinel branch of the source: it calls
`dagshub_stat_result(self, path, len(self._special_file()), is_directory=False)`
while `dagshub_stat_result.__init__` has parameters `(fs, path, is_directory)`
only — the length is bound to `is_directory` positionally and the keyword
`is_directory=False` is then a duplicate.  `synthetic` is a successfully
constructed `dagshub_stat_result(fs, path, is_directory=False)`. -/
inductive StatOutcome
  | notImplemented
  | typeErr
  | localStat (p : List String)
  | synthetic (p : MPath)
  | fileNotFound
deriving DecidableEq, Repr

/-- The snapshot of remote subdirectory names kept in
`DagsHubFilesystem.dirtree`, keyed by `str(path)` of the `listdir`
argument. -/
def DirTree := List (String × List String)

/-- `DagsHubFilesystem.stat`.  Per the source: non-`None` `dir_fd` or
`follow_symlinks=False` raise `NotImplementedError`; outside the mount the
saved original stat runs; `.git/`/`.dvc/` paths stat locally; the sentinel
branch raises the `TypeError` described at `StatOutcome`; otherwise local
stat is attempted and on `FileNotFoundError` the `dirtree` snapshot of the
parent is consulted: if the snapshot exists and the final name is not among
the remote directory names, a synthetic stat result is returned, else the
local stat is retried (raising `FileNotFoundError` again). -/
def fsStat (fs : FSConfig) (g : GlobalFS) (cwd : List String) (path : MPath)
    (dirFd : Option Nat) (followSymlinks : Bool) (dirtree : DirTree) : StatOutcome :=
  if dirFd.isSome || !followSymlinks then .notImplemented
  else
    match relativePath fs cwd path with
    | some rel =>
      if passthroughPath rel then
        (if localExists g (fs.root ++ rel) then .localStat (fs.root ++ rel) else .fileNotFound)
      else if rel = [specialName] then .typeErr
      else if localExists g (fs.root ++ rel) then .localStat (fs.root ++ rel)
      else
        match dirtree.lookup (relStr rel.dropLast) with
        | some names =>
          if rel.getLastD "" ∉ names then .synthetic path else .fileNotFound
        | none => .fileNotFound
    | none =>
      (if localExists g (resolveP cwd path) then .localStat (resolveP cwd path)
       else .fileNotFound)

/-- The fields of a constructed `dagshub_stat_result` when only the
placeholder attributes are read: mode `0o100644`, zeroed timestamps and the
hardcoded size `1100` (the source comment: size requests take a
disproportionate amount of time). -/
structure SyntheticStat where
  stMode : Nat
  stSize : Nat
  stAtime : Nat
  stMtime : Nat
  stCtime : Nat
deriving DecidableEq, Repr

/-- Placeholder attribute values served by `dagshub_stat_result.__getattr__`
before any real stat is backed in. -/
def syntheticStatFields : SyntheticStat :=
  { stMode := 0o100644, stSize := 1100, stAtime := 0, stMtime := 0, stCtime := 0 }

/-- Insert a name into a list treated as a set (Python `set.add`). -/
def setInsert (s : List String) (x : String) : List String :=
  if x ∈ s then s else s ++ [x]

/-- Names of the direct children of a local directory, deduplicated. -/
def localNames (g : GlobalFS) (p : List String) : List String :=
  g.dirs.foldl
    (fun acc d => if d.dropLast = p ∧ d ≠ [] then setInsert acc (d.getLastD "") else acc)
    (g.files.foldl
      (fun acc kv => if kv.fst.dropLast = p ∧ kv.fst ≠ [] then setInsert acc (kv.fst.getLastD "") else acc)
      [])

/-- Outcome of the patched `listdir`. -/
inductive ListdirOutcome
  | ok (names : List String)
  | fileNotFound
  | transportErr
deriving DecidableEq, Repr

/-- `DagsHubFilesystem.listdir`.  Per the source: outside the mount the
saved original listdir runs; `.git/`/`.dvc/` paths list locally; otherwise
the local listing is collected into a set (a `FileNotFoundError` is
remembered), the sentinel name is added when the relative path is the mount
root, and the content endpoint is queried: on an ok response the remote
basenames are unioned in, the remote subdirectory names are recorded in
`dirtree` under `str(path)`, and the set is returned; on an error response
the remembered local error is re-raised if there was one, else the local
set is returned; a transport exception propagates. -/
def fsListdir (fs : FSConfig) (g : GlobalFS) (cwd : List String) (path : MPath)
    (dirtree : DirTree) : ListdirOutcome × DirTree :=
  match relativePath fs cwd path with
  | some rel =>
    if passthroughPath rel then
      (if (fs.root ++ rel) ∈ g.dirs then (.ok (localNames g (fs.root ++ rel)), dirtree)
       else (.fileNotFound, dirtree))
    else
      let localOk := decide ((fs.root ++ rel) ∈ g.dirs)
      let base := if localOk then localNames g (fs.root ++ rel) else []
      let base2 := if rel = [] then setInsert base specialName else base
      match fs.remoteList rel with
      | .transportError => (.transportErr, dirtree)
      | .resp status entries =>
        if status < 400 then
          let res := (entries.map (·.name)).foldl setInsert base2
          let dirsOnly := (entries.filter (·.isDir)).map (·.name)
          (.ok res, (pathStr path, dirsOnly) :: dirtree)
        else if !localOk then (.fileNotFound, dirtree)
        else (.ok base2, dirtree)
  | none =>
    (if (resolveP cwd path) ∈ g.dirs then (.ok (localNames g (resolveP cwd path)), dirtree)
     else (.fileNotFound, dirtree))

/-!
Token store (`src/dagshub/auth/tokens.py`).

A token object carries its text, its `token_type` tag and its `priority`
attribute.  Whether `token.is_expired` holds at the time of the call, and
what `TokenStorage.is_valid_token` would answer for it, are modelled as
boolean fields of the token (the former is a pure attribute of the token,
the latter the oracle for the single HTTP identity check the code makes
for it).
-/

/-- A `DagshubTokenABC` object as `get_token_object` observes it. -/
structure DToken where
  text : String
  ttype : String
  priority : Nat
  expired : Bool
  valid : Bool
deriving DecidableEq, Repr

/-- The `TokenStorage` state: the in-memory `__token_cache`, the in-memory
`_known_good_tokens` sets, and the contents of the persisted cache file
(what `_store_cache_file` last wrote, keyed by host). -/
structure TokenState where
  cache : List (String × List DToken)
  knownGood : List (String × List DToken)
  file : List (String × List DToken)
deriving DecidableEq, Repr

/-- Replace the binding of a host in an association list (Python dict
assignment). -/
def assocSet {α : Type} (m : List (String × α)) (k : String) (v : α) :
    List (String × α) :=
  (k, v) :: m.filter (fun kv => decide (kv.fst ≠ k))

/-- Stable insertion of a token into a list sorted by ascending priority:
the new token goes after all tokens of smaller or equal priority. -/
def insertByPriority (t : DToken) : List DToken → List DToken
  | [] => [t]
  | x :: xs =>
    if t.priority < x.priority then t :: x :: xs else x :: insertByPriority t xs

/-- The `sorted(tokens, key=lambda t: t.priority)` queue: a stable sort by
ascending priority. -/
def sortTokens : List DToken → List DToken
  | [] => []
  | t :: ts => insertByPriority t (sortTokens ts)

/-- The `for token in token_queue` loop of `get_token_object`; arguments
are the remaining queue, the live `tokens` list (the host binding of the
cache, mutated in place by `remove_token`) and the live known-good set.
Returns the found good token (if any), the final `tokens` list and the
final known-good set. -/
def getLoop : List DToken → List DToken → List DToken →
    Option DToken × List DToken × List DToken
  | [], tokens, goodSet => (none, tokens, goodSet)
  | t :: queue, tokens, goodSet =>
    if t.expired then
      getLoop queue (tokens.erase t) (goodSet.erase t)
    else if t ∈ goodSet then
      (some t, tokens, goodSet)
    else if t.valid then
      (some t, tokens, t :: goodSet)
    else
      getLoop queue (tokens.erase t) (goodSet.erase t)

/-- Result of `get_token_object`: the synthesized environment-variable
token, a cached (or fresh OAuth) token, or the `RuntimeError` raised when
`fail_if_no_token` is set and no token survives. -/
inductive TokenResult
  | envVar (text : String) (host : String)
  | token (t : DToken)
  | noTokenError
deriving DecidableEq, Repr

/-- `TokenStorage.get_token_object(host, fail_if_no_token)`.  Arguments
beyond the state: the value of `config.token` (the environment-variable
token), `config.host`, the requested host, the flag, and the token the
OAuth flow would produce if launched.  Mirrors the source: the
environment-variable shortcut; the queue sorted by ascending priority; the
loop (`getLoop`) removing expired and invalid tokens from the live list;
the store write when tokens were removed (the in-memory binding is the
same mutated list object); and on no survivor either the `RuntimeError`
or the OAuth flow, whose token is appended, marked known-good and
persisted. -/
def get_token_object (st : TokenState) (envToken : Option String)
    (configHost host : String) (failIfNoToken : Bool) (oauthToken : DToken) :
    TokenResult × TokenState :=
  if host = configHost ∧ envToken.isSome then
    (.envVar (envToken.getD "") host, st)
  else
    let tokens := (st.cache.lookup host).getD []
    let goodSet := (st.knownGood.lookup host).getD []
    let r := getLoop (sortTokens tokens) tokens goodSet
    let tokens1 := r.2.1
    let goodSet1 := r.2.2
    let hadChanges := decide (tokens1 ≠ tokens)
    let cache1 := if hadChanges then assocSet st.cache host tokens1 else st.cache
    let file1 := if hadChanges then cache1 else st.file
    match r.1 with
    | some g =>
      (.token g,
       { cache := cache1, knownGood := assocSet st.knownGood host goodSet1,
         file := file1 })
    | none =>
      if failIfNoToken then
        (.noTokenError,
         { cache := cache1, knownGood := assocSet st.knownGood host goodSet1,
           file := file1 })
      else
        let cache2 := assocSet cache1 host (tokens1 ++ [oauthToken])
        (.token oauthToken,
         { cache := cache2,
           knownGood := assocSet st.knownGood host (oauthToken :: goodSet1),
           file := cache2 })

/-- The predicate deciding whether the loop accepts a token: not expired,
and either already known good or accepted by the validity check. -/
def isGoodTok (goodSet : List DToken) (t : DToken) : Bool :=
  !t.expired && (decide (t ∈ goodSet) || t.valid)

/-- Declarative restatement of the retrieval algorithm exactly as the
claim words it: the environment-variable token is returned synthesized and
nothing is persisted; otherwise the host tokens are taken in ascending
priority order, every expired or invalid token before the first surviving
one is removed from the cache (and the store rewritten), the first token
that is not expired and is known good or validates is returned (marked
known good when freshly validated); if none survives, either the error is
raised or the OAuth token is appended, marked known good and persisted. -/
def get_token_object_claimed (st : TokenState) (envToken : Option String)
    (configHost host : String) (failIfNoToken : Bool) (oauthToken : DToken) :
    TokenResult × TokenState :=
  if host = configHost ∧ envToken.isSome then
    (.envVar (envToken.getD "") host, st)
  else
    let tokens := (st.cache.lookup host).getD []
    let goodSet := (st.knownGood.lookup host).getD []
    let queue := sortTokens tokens
    let removed := queue.takeWhile (fun t => !isGoodTok goodSet t)
    let tokens1 := removed.foldl (fun acc t => acc.erase t) tokens
    let goodSet1 := removed.foldl (fun acc t => acc.erase t) goodSet
    let hadChanges := decide (tokens1 ≠ tokens)
    let cache1 := if hadChanges then assocSet st.cache host tokens1 else st.cache
    let file1 := if hadChanges then cache1 else st.file
    match queue.find? (isGoodTok goodSet) with
    | some g =>
      let goodSet2 := if g ∈ goodSet1 then goodSet1 else g :: goodSet1
      (.token g,
       { cache := cache1, knownGood := assocSet st.knownGood host goodSet2,
         file := file1 })
    | none =>
      if failIfNoToken then
        (.noTokenError,
         { cache := cache1, knownGood := assocSet st.knownGood host goodSet1,
           file := file1 })
      else
        let cache2 := assocSet cache1 host (tokens1 ++ [oauthToken])
        (.token oauthToken,
         { cache := cache2,
           knownGood := assocSet st.knownGood host (oauthToken :: goodSet1),
           file := cache2 })

/-- `TokenStorage.is_valid_token`, given the identity-endpoint response
status and whether the JSON body contains a `login` field.  The source
asserts the status is not in 400..499, then for status 200 asserts the
body has `login`, and returns `True` unless an assertion failed. -/
def is_valid_token (status : Nat) (hasLogin : Bool) : Bool :=
  if 400 ≤ status ∧ status ≤ 499 then false
  else if status = 200 then hasLogin
  else true

/-- The validity predicate exactly as the claim words it: true iff the
response is 2xx with a `login` field, false on 4xx, true on 5xx. -/
def is_valid_token_claimed (status : Nat) (hasLogin : Bool) : Bool :=
  if 400 ≤ status ∧ status ≤ 499 then false
  else if 500 ≤ status ∧ status ≤ 599 then true
  else decide (200 ≤ status ∧ status ≤ 299) && hasLogin

/-- The `for t in filter(lambda token: token.is_expired, tokens)` loop of
`remove_expired_tokens`, with `tokens.remove(t)` in the body.  The Python
`filter` holds a live index-based iterator over the very list being
mutated: after yielding the element at index `idx` the iterator moves to
index `idx + 1` of the (possibly shortened) list, so removing the element
at `idx` skips its successor.  The fuel starts at the list length, which
bounds the number of iterator steps. -/
def pruneIter : Nat → List DToken → Nat → List DToken
  | 0, tokens, _ => tokens
  | fuel + 1, tokens, idx =>
    if h : idx < tokens.length then
      let t := tokens.get ⟨idx, h⟩
      if t.expired then pruneIter fuel (tokens.erase t) (idx + 1)
      else pruneIter fuel tokens (idx + 1)
    else tokens

/-- The per-host body of `remove_expired_tokens`. -/
def removeExpiredHost (tokens : List DToken) : List DToken :=
  pruneIter tokens.length tokens 0

/-- `TokenStorage.remove_expired_tokens` applied to the in-memory cache
mapping. -/
def remove_expired_tokens (cache : List (String × List DToken)) :
    List (String × List DToken) :=
  cache.map (fun hv => (hv.fst, removeExpiredHost hv.snd))

/-- The `_token_cache` property on first access: load the parsed cache
file, run `remove_expired_tokens`, and (when that removed something) write
the cache file back.  `initial` is the parsed content of the cache file;
the known-good sets start empty. -/
def loadTokenState (initial : List (String × List DToken)) : TokenState :=
  let pruned := remove_expired_tokens initial
  { cache := pruned, knownGood := [],
    file := if pruned ≠ initial then pruned else initial }

/-!
Hook installation (`install_hooks` / `uninstall_hooks`).

The ambient primitives patched by `install_hooks` are the module-level
slots `io.open`, `builtins.open`, `pathlib._NormalAccessor.open`,
`os.stat`, `pathlib._NormalAccessor.stat`, `os.listdir`,
`pathlib._NormalAccessor.listdir`, `os.scandir`,
`pathlib._NormalAccessor.scandir` and `os.chdir`.  A slot value is either
an original library function or the bound method of a particular
filesystem instance (identified by a number).  The class-level
`__unpatched` dictionary saves one value per primitive name the first
time any instance installs.
-/

/-- A value held in an ambient primitive slot. -/
inductive Prim
  | original (name : String)
  | patched (fsId : Nat) (name : String)
deriving DecidableEq, Repr

/-- The ten ambient slots `install_hooks` assigns. -/
structure HookState where
  ioOpen : Prim
  builtinsOpen : Prim
  pathlibOpen : Prim
  osStat : Prim
  pathlibStat : Prim
  osListdir : Prim
  pathlibListdir : Prim
  osScandir : Prim
  pathlibScandir : Prim
  osChdir : Prim
deriving DecidableEq, Repr

/-- The class-level `__unpatched` dictionary: one saved value per
primitive name (`open`, `stat`, `listdir`, `scandir`, `chdir`). -/
structure SavedPrims where
  savedOpen : Prim
  savedStat : Prim
  savedListdir : Prim
  savedScandir : Prim
  savedChdir : Prim
deriving DecidableEq, Repr

/-- The class state: `__unpatched`, absent until the first install. -/
structure ClassState where
  unpatched : Option SavedPrims
deriving DecidableEq, Repr

/-- The ambient state of a clean interpreter, before any install. -/
def cleanHooks : HookState :=
  { ioOpen := .original "open", builtinsOpen := .original "open",
    pathlibOpen := .original "open",
    osStat := .original "stat", pathlibStat := .original "stat",
    osListdir := .original "listdir", pathlibListdir := .original "listdir",
    osScandir := .original "scandir", pathlibScandir := .original "scandir",
    osChdir := .original "chdir" }

/-- `DagsHubFilesystem.install_hooks` for the instance numbered `fsId`:
when `__unpatched` is not yet set, it saves the current `io.open`,
`os.stat`, `os.listdir`, `os.scandir` and `os.chdir`; then every slot is
assigned the bound method of this instance. -/
def installHooks (fsId : Nat) (h : HookState) (c : ClassState) :
    HookState × ClassState :=
  let c1 : ClassState :=
    match c.unpatched with
    | none =>
      { unpatched := some
          ({ savedOpen := h.ioOpen, savedStat := h.osStat,
             savedListdir := h.osListdir, savedScandir := h.osScandir,
             savedChdir := h.osChdir }) }
    | some s => { unpatched := some s }
  let h1 : HookState :=
    { ioOpen := .patched fsId "open", builtinsOpen := .patched fsId "open",
      pathlibOpen := .patched fsId "open",
      osStat := .patched fsId "stat", pathlibStat := .patched fsId "stat",
      osListdir := .patched fsId "listdir",
      pathlibListdir := .patched fsId "listdir",
      osScandir := .patched fsId "scandir",
      pathlibScandir := .patched fsId "scandir",
      osChdir := .patched fsId "chdir" }
  (h1, c1)

/-- `DagsHubFilesystem.uninstall_hooks`: when `__unpatched` is set, it
assigns `io.open` and `builtins.open` the saved open, `os.stat` and the
pathlib stat the saved stat, both listdir slots, both scandir slots, and
`os.chdir` the saved chdir.  The pathlib open slot is not in the source
restore list. -/
def uninstallHooks (h : HookState) (c : ClassState) : HookState :=
  match c.unpatched with
  | none => h
  | some s =>
    { h with
      ioOpen := s.savedOpen, builtinsOpen := s.savedOpen,
      osStat := s.savedStat, pathlibStat := s.savedStat,
      osListdir := s.savedListdir, pathlibListdir := s.savedListdir,
      osScandir := s.savedScandir, pathlibScandir := s.savedScandir,
      osChdir := s.savedChdir }

/-- What the ambient `open(path)` call does after hooking: the
`builtins.open` slot either is the original library open (a plain local
open) or the bound `DagsHubFilesystem.open` of the instance registered
under its number (whose own pass-through branch uses the saved original,
restored by `fsOpen` as a plain local open). -/
def dispatchOpen (reg : List (Nat × FSConfig)) (h : HookState) (g : GlobalFS)
    (cwd : List String) (p : MPath) : OpenOutcome × GlobalFS × Bool :=
  match h.builtinsOpen with
  | .original _ => (localOpenRead g (resolveP cwd p), g, false)
  | .patched fsId _ =>
    match reg.lookup fsId with
    | some fs => fsOpen fs g cwd p none
    | none => (.fileNotFound, g, false)

/-!
Concrete mounts, disks and token states used by witnesses and
counterexamples below.
-/

/-- Concrete mount used by the C10 witness. -/
def w10fs : FSConfig :=
  ⟨["r"], fun _ => .resp 404 "", fun _ => .resp 404 []⟩

/-- Empty local disk used by the C10 witness. -/
def w10g : GlobalFS := ⟨[], []⟩

/-- Outer mount of the C4 scenario: root `/tmp/m`, remote file
`repo2/a/b.txt` with contents `FAIL`. -/
def c4fsA : FSConfig :=
  ⟨["tmp", "m"],
   fun rel => if rel = ["repo2", "a", "b.txt"] then .resp 200 "FAIL" else .resp 404 "",
   fun _ => .resp 404 []⟩

/-- Inner mount of the C4 scenario: root `/tmp/m/repo2`, remote file
`a/b.txt` with contents `OK`. -/
def c4fsB : FSConfig :=
  ⟨["tmp", "m", "repo2"],
   fun rel => if rel = ["a", "b.txt"] then .resp 200 "OK" else .resp 404 "",
   fun _ => .resp 404 []⟩

/-- Local disk of the C4 scenario: both mount roots exist, no files. -/
def c4g : GlobalFS := ⟨[], [["tmp"], ["tmp", "m"], ["tmp", "m", "repo2"]]⟩

/-- Instance registry of the C4 scenario. -/
def c4reg : List (Nat × FSConfig) := [(1, c4fsA), (2, c4fsB)]

/-- Mount used by the C9 sentinel scenario: root `/m`, remote with an
empty root listing and no raw files. -/
def c9fs : FSConfig :=
  ⟨["m"], fun _ => .resp 404 "",
   fun rel => if rel = [] then .resp 200 [] else .resp 404 []⟩

/-- Local disk of the C9 scenario: just the mount root directory. -/
def c9g : GlobalFS := ⟨[], [["m"]]⟩

/-- First expired token of the C7 scenario. -/
def c7e1 : DToken := ⟨"t1", "oauth", 2, true, false⟩

/-- Second expired token of the C7 scenario. -/
def c7e2 : DToken := ⟨"t2", "oauth", 2, true, false⟩

/-- OAuth-flow token of the C7 scenario (never reached). -/
def c7oauth : DToken := ⟨"tn", "oauth", 2, false, true⟩

/-- Mount used by the C1 witness: root `/r`, remote file `a/b.txt`
containing `hello`. -/
def c1fs : FSConfig :=
  ⟨["r"],
   fun rel => if rel = ["a", "b.txt"] then .resp 200 "hello" else .resp 404 "",
   fun _ => .resp 404 []⟩

/-- Local disk of the C1 witness: just the mount root. -/
def c1g : GlobalFS := ⟨[], [["r"]]⟩

/-- Mount used by the C3 counterexample: root `/r`; the remote has a
directory `sub` containing only the subdirectory `inner`; no raw files. -/
def c3fs : FSConfig :=
  ⟨["r"],
   fun _ => .resp 404 "",
   fun rel => if rel = ["sub"] then .resp 200 [⟨"inner", true⟩] else .resp 404 []⟩

/-- Local disk of the C3 counterexample: the mount root and `sub`, no
files; `sub/missing.txt` is absent both locally and remotely. -/
def c3g : GlobalFS := ⟨[], [["r"], ["r", "sub"]]⟩

/-- Mount used by the C8 witness: the remote lists `y.txt` (a file) and
`d2` (a directory) under `d`. -/
def c8fs : FSConfig :=
  ⟨["r"],
   fun _ => .resp 404 "",
   fun rel => if rel = ["d"] then .resp 200 [⟨"y.txt", false⟩, ⟨"d2", true⟩]
     else .resp 404 []⟩

/-- Local disk of the C8 witness: directory `/r/d` holds the file
`x.txt`. -/
def c8g : GlobalFS := ⟨[(["r", "d", "x.txt"], "1")], [["r"], ["r", "d"]]⟩

/-- Token of the C2 witness: one cached valid application token. -/
def c2tok : DToken := ⟨"a", "app-token", 1, false, true⟩

/-- OAuth-flow token of the C2 witness (never reached). -/
def c2oauth : DToken := ⟨"b", "oauth", 2, false, true⟩

/-- State of the C2 witness. -/
def c2state : TokenState := ⟨[("h", [c2tok])], [], [("h", [c2tok])]⟩

/-!
Theorems.
-/

/-- C6 counterexample: a 201 response without a `login` field.  The code
returns `True` for every 2xx status other than exactly 200 regardless of
the body, so the claimed biconditional (valid iff 2xx with `login`) fails
here. -/
theorem c6_counterexample :
    is_valid_token 201 false = true ∧ is_valid_token_claimed 201 false = false := by
  decide

/-- C6 (amended): `is_valid_token` returns true iff the status is not in
400..499 and, when the status is exactly 200, the body has a `login`
field; in particular every 4xx is invalid, every 5xx is valid, 200 with
`login` is valid and 200 without `login` is invalid. -/
theorem c6_is_valid_token_characterization (s : Nat) (l : Bool) :
    is_valid_token s l = true ↔ ¬(400 ≤ s ∧ s ≤ 499) ∧ (s = 200 → l = true) := by
  unfold is_valid_token
  by_cases h4 : 400 ≤ s ∧ s ≤ 499
  · simp [h4]
  · by_cases h2 : s = 200
    · simp [h4, h2]
    · simp [h4, h2]

/-- C10: the patched `open` raises `NotImplementedError` for any
non-`None` opener, and the patched `stat` raises `NotImplementedError`
for any non-`None` `dir_fd` or for `follow_symlinks=False`, before any
path handling, for every path. -/
theorem c10_not_implemented_guards (fs : FSConfig) (g : GlobalFS)
    (cwd : List String) (p : MPath) (o : Unit) (dirFd : Option Nat)
    (fl : Bool) (dt : DirTree) :
    fsOpen fs g cwd p (some o) = (.notImplemented, g, false)
    ∧ (dirFd.isSome = true ∨ fl = false →
        fsStat fs g cwd p dirFd fl dt = .notImplemented) := by
  constructor
  · rfl
  · intro h
    unfold fsStat
    rcases h with h | h
    · simp [h]
    · simp [h]

/-- C10 witness: the guards fire at a concrete path inside the mount. -/
theorem c10_not_implemented_guards_witness :
    fsOpen w10fs w10g [] ⟨true, ["r", "x"]⟩ (some ()) = (.notImplemented, w10g, false)
    ∧ fsStat w10fs w10g [] ⟨true, ["r", "x"]⟩ (some 3) true [] = .notImplemented := by
  have h := c10_not_implemented_guards w10fs w10g [] ⟨true, ["r", "x"]⟩ () (some 3) true []
  exact ⟨h.1, h.2 (Or.inl rfl)⟩

/-- C5: after `install_hooks` on a clean interpreter followed by
`uninstall_hooks`, the pathlib open slot still holds the patched bound
method (the source restore list omits it), while every other patched slot
is restored to its captured original.  This refutes the claim that every
replaced primitive equals its pre-install value and exhibits the slip. -/
theorem c5_pathlib_open_not_restored :
    (let s := installHooks 1 cleanHooks ⟨none⟩
     let h2 := uninstallHooks s.1 s.2
     h2.pathlibOpen = .patched 1 "open"
     ∧ h2.pathlibOpen ≠ cleanHooks.pathlibOpen
     ∧ h2.ioOpen = cleanHooks.ioOpen
     ∧ h2.builtinsOpen = cleanHooks.builtinsOpen
     ∧ h2.osStat = cleanHooks.osStat
     ∧ h2.pathlibStat = cleanHooks.pathlibStat
     ∧ h2.osListdir = cleanHooks.osListdir
     ∧ h2.pathlibListdir = cleanHooks.pathlibListdir
     ∧ h2.osScandir = cleanHooks.osScandir
     ∧ h2.pathlibScandir = cleanHooks.pathlibScandir
     ∧ h2.osChdir = cleanHooks.osChdir) := by
  decide

/-- C4: resolution is not longest-prefix but last-install-wins.  With the
outer mount installed after the inner one, `open("/tmp/m/repo2/a/b.txt")`
is dispatched to the outer mount and yields `FAIL`; only the opposite
install order yields the inner mount contents `OK`.  The claim (and the
repository test `test_nesting_priority_reverse_order`) requires `OK`
regardless of install order. -/
theorem c4_longest_prefix_violated :
    (let s1 := installHooks 2 cleanHooks ⟨none⟩
     let s2 := installHooks 1 s1.1 s1.2
     (dispatchOpen c4reg s2.1 c4g [] ⟨true, ["tmp", "m", "repo2", "a", "b.txt"]⟩).1
       = .ok "FAIL")
    ∧ (let t1 := installHooks 1 cleanHooks ⟨none⟩
       let t2 := installHooks 2 t1.1 t1.2
       (dispatchOpen c4reg t2.1 c4g [] ⟨true, ["tmp", "m", "repo2", "a", "b.txt"]⟩).1
         = .ok "OK") := by
  constructor
  · rfl
  · rfl

/-- C9: the sentinel is served at the mount root: `open` returns the
in-memory constant payload `v0\n` (of length 3) without touching the disk
or the network, the name appears in `listdir` of the mount root, and a
sentinel path below the root is not served.  But `stat` on the sentinel
raises a `TypeError` instead of reporting size 3: the source calls
`dagshub_stat_result(self, path, len(self._special_file()), is_directory=False)`
whose constructor only accepts `(fs, path, is_directory)` — and the
constructed result would report the hardcoded placeholder size 1100 in any
case, never 3. -/
theorem c9_sentinel :
    fsOpen c9fs c9g [] ⟨true, ["m", ".dagshub-streaming"]⟩ none
      = (.ok "v0\n", c9g, false)
    ∧ specialFile = "v0\n" ∧ specialFile.length = 3
    ∧ fsStat c9fs c9g [] ⟨true, ["m", ".dagshub-streaming"]⟩ none true [] = .typeErr
    ∧ (fsListdir c9fs c9g [] ⟨true, ["m"]⟩ []).1 = .ok [".dagshub-streaming"]
    ∧ (fsOpen c9fs c9g [] ⟨true, ["m", "sub", ".dagshub-streaming"]⟩ none).1
        = .fileNotFound
    ∧ syntheticStatFields.stSize = 1100 := by
  decide

/-- C7: pruning at load time misses an expired token.  The loop
`for t in filter(lambda token: token.is_expired, tokens): tokens.remove(t)`
iterates a live iterator over the list it shortens, so with two
consecutive expired tokens the second one survives — both in the
in-memory cache and in the file written back.  The final clause of the claim
does hold: `get_token_object` with `fail_if_no_token=True` still raises,
because the retrieval loop re-checks expiry. -/
theorem c7_expired_token_survives_prune :
    (loadTokenState [("h", [c7e1, c7e2])]).cache = [("h", [c7e2])]
    ∧ (loadTokenState [("h", [c7e1, c7e2])]).file = [("h", [c7e2])]
    ∧ c7e2.expired = true
    ∧ (get_token_object (loadTokenState [("h", [c7e1, c7e2])]) none "h" "h"
        true c7oauth).1 = .noTokenError := by
  decide

/-- Membership in the directory list is preserved by the `_mkdirs` fold. -/
lemma mem_foldl_mkdirStep_of_mem_init (files : List (List String × String)) :
    ∀ (ps : List (List String)) (ds : List (List String)) (x : List String),
      x ∈ ds → x ∈ ps.foldl (mkdirStep files) ds
  | [], _, _, hx => hx
  | p :: ps, ds, x, hx => by
    have hstep : x ∈ mkdirStep files ds p := by
      unfold mkdirStep
      split
      · exact List.mem_append_left _ hx
      · exact hx
    exact mem_foldl_mkdirStep_of_mem_init files ps (mkdirStep files ds p) x hstep

/-- Every path in the `_mkdirs` worklist not blocked by a local file is a
directory after the fold. -/
lemma mem_foldl_mkdirStep (files : List (List String × String)) :
    ∀ (ps : List (List String)) (ds : List (List String)) (p : List String),
      p ∈ ps → files.lookup p = none → p ∈ ps.foldl (mkdirStep files) ds
  | [], _, _, hp, _ => absurd hp (List.not_mem_nil _)
  | q :: ps, ds, p, hp, hf => by
    rcases List.mem_cons.mp hp with hq | hps
    · subst hq
      have hmem : p ∈ mkdirStep files ds p := by
        unfold mkdirStep
        split
        · exact List.mem_append_right _ (List.mem_singleton_self p)
        · rename_i hcond
          rcases not_and_or.mp hcond with hbad | hds
          · exact absurd hf hbad
          · exact not_not.mp hds
      exact mem_foldl_mkdirStep_of_mem_init files ps _ p hmem
    · exact mem_foldl_mkdirStep files ps _ p hps hf

/-- Each unblocked prefix of the `_mkdirs` target exists as a directory
afterwards. -/
lemma mkdirsUnder_mem (g : GlobalFS) (root rel : List String) (k : Nat)
    (hk : k ≤ rel.length) (hf : g.files.lookup (root ++ rel.take k) = none) :
    (root ++ rel.take k) ∈ (mkdirsUnder g root rel).dirs := by
  unfold mkdirsUnder
  apply mem_foldl_mkdirStep
  · exact List.mem_map.mpr ⟨k, List.mem_range.mpr (Nat.lt_succ_of_le hk), rfl⟩
  · exact hf

/-- Looking up the key just written finds the new binding. -/
lemma lookup_cons_self {α β : Type} [BEq α] [LawfulBEq α] (k : α) (v : β)
    (l : List (α × β)) : List.lookup k ((k, v) :: l) = some v := by
  simp [List.lookup]

/-- C1: reads inside the mount lazily materialize.  With the path under
the mount, not reserved, not the sentinel, and not a local directory:
when the file exists locally it is served with no network call (so a
transport error can only surface after the local fallback failed); when
it is missing locally, an ok raw response is written under the
materialization root after creating the missing parent directories and
the reopened contents are returned, after which the file exists locally
and a second open is served locally with no network call; a 404 raw
response raises `FileNotFoundError`; a transport error propagates. -/
theorem c1_open_lazy_materialization (fs : FSConfig) (g : GlobalFS)
    (cwd : List String) (file : MPath) (rel : List String)
    (hrel : relativePath fs cwd file = some rel)
    (hpass : passthroughPath rel = false)
    (hspec : rel ≠ [specialName])
    (hdir : (fs.root ++ rel) ∉ g.dirs) :
    (∀ c, lookupFile g (fs.root ++ rel) = some c →
      fsOpen fs g cwd file none = (.ok c, g, false))
    ∧ (lookupFile g (fs.root ++ rel) = none →
        (∀ s c, fs.remoteRaw rel = .resp s c → s < 400 →
          fsOpen fs g cwd file none =
            (.ok c, fsWrite (mkdirsUnder g fs.root rel.dropLast) (fs.root ++ rel) c, true)
          ∧ lookupFile (fsWrite (mkdirsUnder g fs.root rel.dropLast) (fs.root ++ rel) c)
              (fs.root ++ rel) = some c
          ∧ (∀ k, k ≤ rel.dropLast.length →
              g.files.lookup (fs.root ++ rel.dropLast.take k) = none →
              (fs.root ++ rel.dropLast.take k) ∈
                (fsWrite (mkdirsUnder g fs.root rel.dropLast) (fs.root ++ rel) c).dirs)
          ∧ fsOpen fs (fsWrite (mkdirsUnder g fs.root rel.dropLast) (fs.root ++ rel) c)
              cwd file none =
              (.ok c, fsWrite (mkdirsUnder g fs.root rel.dropLast) (fs.root ++ rel) c, false))
        ∧ (∀ c, fs.remoteRaw rel = .resp 404 c →
            fsOpen fs g cwd file none = (.fileNotFound, g, true))
        ∧ (fs.remoteRaw rel = .transportError →
            fsOpen fs g cwd file none = (.transportErr, g, true))) := by
  constructor
  · intro c hc
    unfold fsOpen
    rw [hrel]
    simp only [hpass, Bool.false_eq_true, if_false, if_neg hspec]
    unfold localOpenRead
    rw [hc]
  · intro hnone
    have hlocal : localOpenRead g (fs.root ++ rel) = .fileNotFound := by
      unfold localOpenRead
      rw [hnone]
      simp [hdir]
    refine ⟨?_, ?_, ?_⟩
    · intro s c hresp hs
      have hopen : fsOpen fs g cwd file none =
          (.ok c, fsWrite (mkdirsUnder g fs.root rel.dropLast) (fs.root ++ rel) c, true) := by
        unfold fsOpen
        rw [hrel]
        simp only [hpass, Bool.false_eq_true, if_false, if_neg hspec]
        rw [hlocal, hresp]
        simp [hs]
      refine ⟨hopen, ?_, ?_, ?_⟩
      · unfold lookupFile fsWrite
        exact lookup_cons_self _ _ _
      · intro k hk hf
        show (fs.root ++ rel.dropLast.take k) ∈ (mkdirsUnder g fs.root rel.dropLast).dirs
        exact mkdirsUnder_mem g fs.root rel.dropLast k hk hf
      · unfold fsOpen
        rw [hrel]
        simp only [hpass, Bool.false_eq_true, if_false, if_neg hspec]
        unfold localOpenRead
        rw [show lookupFile (fsWrite (mkdirsUnder g fs.root rel.dropLast) (fs.root ++ rel) c)
              (fs.root ++ rel) = some c from lookup_cons_self _ _ _]
    · intro c hresp
      unfold fsOpen
      rw [hrel]
      simp only [hpass, Bool.false_eq_true, if_false, if_neg hspec]
      rw [hlocal, hresp]
      simp
    · intro htr
      unfold fsOpen
      rw [hrel]
      simp only [hpass, Bool.false_eq_true, if_false, if_neg hspec]
      rw [hlocal, htr]

/-- C1 witness: at `/r/a/b.txt` the fetch materializes the file, the
parent directory now exists, and a second open is local. -/
theorem c1_open_lazy_materialization_witness :
    fsOpen c1fs c1g [] ⟨true, ["r", "a", "b.txt"]⟩ none =
      (.ok "hello",
       fsWrite (mkdirsUnder c1g ["r"] ["a"]) ["r", "a", "b.txt"] "hello", true)
    ∧ (["r", "a"] : List String) ∈
        (fsWrite (mkdirsUnder c1g ["r"] ["a"]) ["r", "a", "b.txt"] "hello").dirs
    ∧ fsOpen c1fs (fsWrite (mkdirsUnder c1g ["r"] ["a"]) ["r", "a", "b.txt"] "hello")
        [] ⟨true, ["r", "a", "b.txt"]⟩ none =
      (.ok "hello",
       fsWrite (mkdirsUnder c1g ["r"] ["a"]) ["r", "a", "b.txt"] "hello", false) := by
  have h := c1_open_lazy_materialization c1fs c1g [] ⟨true, ["r", "a", "b.txt"]⟩
    ["a", "b.txt"] rfl rfl (by decide) (by decide)
  have h2 := (h.2 rfl).1 200 "hello" rfl (by decide)
  exact ⟨h2.1, h2.2.2.1 1 (by decide) rfl, h2.2.2.2⟩

/-- C3 counterexample: after a `listdir("sub")` from the mount root has
populated the `dirtree` snapshot, `stat("sub/missing.txt")` — a path
absent both locally and remotely — returns a synthetic regular-file stat
result instead of raising not-found (the source returns
`dagshub_stat_result(self, path, is_directory=False)` whenever the
snapshot exists and the name is not a known remote directory).  The open
half of the claim does hold at the same path. -/
theorem c3_counterexample :
    fsStat c3fs c3g ["r"] ⟨false, ["sub", "missing.txt"]⟩ none true
        (fsListdir c3fs c3g ["r"] ⟨false, ["sub"]⟩ []).2
      = .synthetic ⟨false, ["sub", "missing.txt"]⟩
    ∧ StatOutcome.synthetic (⟨false, ["sub", "missing.txt"]⟩ : MPath) ≠ .fileNotFound
    ∧ fsOpen c3fs c3g ["r"] ⟨false, ["sub", "missing.txt"]⟩ none
        = (.fileNotFound, c3g, true) := by
  decide

/-- C3 (amended): for a path inside the mount (not reserved, not the
sentinel) that does not exist locally, `open` raises the platform
not-found error whenever the raw endpoint answers with any error status
(404 included); `stat` raises the platform not-found error when the
parent-listing snapshot has no entry under the looked-up key, but when
the snapshot is present and the name is not among its remote directory
names, `stat` returns a synthetic regular-file stat result instead of
raising. -/
theorem c3_absent_path_behaviour (fs : FSConfig) (g : GlobalFS)
    (cwd : List String) (p : MPath) (rel : List String) (dirtree : DirTree)
    (hrel : relativePath fs cwd p = some rel)
    (hpass : passthroughPath rel = false)
    (hspec : rel ≠ [specialName])
    (hlocal : localExists g (fs.root ++ rel) = false) :
    (∀ s c, fs.remoteRaw rel = .resp s c → 400 ≤ s →
      fsOpen fs g cwd p none = (.fileNotFound, g, true))
    ∧ (dirtree.lookup (relStr rel.dropLast) = none →
        fsStat fs g cwd p none true dirtree = .fileNotFound)
    ∧ (∀ names, dirtree.lookup (relStr rel.dropLast) = some names →
        rel.getLastD "" ∉ names →
        fsStat fs g cwd p none true dirtree = .synthetic p) := by
  have hfile : lookupFile g (fs.root ++ rel) = none := by
    unfold localExists at hlocal
    rcases h : lookupFile g (fs.root ++ rel) with _ | c
    · rfl
    · rw [h] at hlocal
      simp at hlocal
  have hdirs : (fs.root ++ rel) ∉ g.dirs := by
    unfold localExists at hlocal
    intro hmem
    rw [decide_eq_true hmem] at hlocal
    simp at hlocal
  have hopenLocal : localOpenRead g (fs.root ++ rel) = .fileNotFound := by
    unfold localOpenRead
    rw [hfile]
    simp [hdirs]
  refine ⟨?_, ?_, ?_⟩
  · intro s c hresp hs
    unfold fsOpen
    rw [hrel]
    simp only [hpass, Bool.false_eq_true, if_false, if_neg hspec]
    rw [hopenLocal, hresp]
    simp [Nat.not_lt.mpr hs]
  · intro hdt
    unfold fsStat
    rw [hrel]
    simp only [hpass, Bool.false_eq_true, if_false, if_neg hspec,
      Option.isSome_none, Bool.not_true, Bool.or_self, hlocal]
    rw [hdt]
  · intro names hdt hnm
    unfold fsStat
    rw [hrel]
    simp only [hpass, Bool.false_eq_true, if_false, if_neg hspec,
      Option.isSome_none, Bool.not_true, Bool.or_self, hlocal]
    rw [hdt]
    show (if rel.getLastD "" ∉ names then StatOutcome.synthetic p
      else StatOutcome.fileNotFound) = StatOutcome.synthetic p
    rw [if_pos hnm]

/-- C3 witness: with an empty snapshot, both `open` and `stat` on
`/r/sub/missing.txt` raise not-found. -/
theorem c3_absent_path_behaviour_witness :
    fsOpen c3fs c3g ["r"] ⟨false, ["sub", "missing.txt"]⟩ none
      = (.fileNotFound, c3g, true)
    ∧ fsStat c3fs c3g ["r"] ⟨false, ["sub", "missing.txt"]⟩ none true []
      = .fileNotFound := by
  have h := c3_absent_path_behaviour c3fs c3g ["r"] ⟨false, ["sub", "missing.txt"]⟩
    ["sub", "missing.txt"] [] rfl rfl (by decide) (by decide)
  exact ⟨h.1 404 "" rfl (by decide), h.2.1 rfl⟩

/-- Membership in `setInsert`. -/
lemma mem_setInsert (s : List String) (x y : String) :
    y ∈ setInsert s x ↔ y ∈ s ∨ y = x := by
  unfold setInsert
  split
  · rename_i hx
    constructor
    · exact Or.inl
    · rintro (h | rfl)
      · exact h
      · exact hx
  · simp [List.mem_append]

/-- `setInsert` preserves distinctness. -/
lemma nodup_setInsert (s : List String) (x : String) (h : s.Nodup) :
    (setInsert s x).Nodup := by
  unfold setInsert
  split
  · exact h
  · rename_i hx
    rw [List.nodup_append]
    refine ⟨h, List.nodup_singleton x, ?_⟩
    intro a ha hax
    rw [List.mem_singleton] at hax
    subst hax
    exact hx ha

/-- Membership in a fold of `setInsert`. -/
lemma mem_foldl_setInsert (l : List String) :
    ∀ (s : List String) (y : String),
      y ∈ l.foldl setInsert s ↔ y ∈ s ∨ y ∈ l := by
  induction l with
  | nil => intro s y; simp
  | cons x xs ih =>
    intro s y
    rw [List.foldl_cons, ih, mem_setInsert]
    constructor
    · rintro ((h | rfl) | h)
      · exact Or.inl h
      · exact Or.inr (List.mem_cons_self _ _)
      · exact Or.inr (List.mem_cons_of_mem _ h)
    · rintro (h | h)
      · exact Or.inl (Or.inl h)
      · rcases List.mem_cons.mp h with rfl | h
        · exact Or.inl (Or.inr rfl)
        · exact Or.inr h

/-- A fold of `setInsert` over any list keeps the accumulator distinct. -/
lemma nodup_foldl_setInsert (l : List String) :
    ∀ (s : List String), s.Nodup → (l.foldl setInsert s).Nodup := by
  induction l with
  | nil => intro s hs; exact hs
  | cons x xs ih =>
    intro s hs
    rw [List.foldl_cons]
    exact ih _ (nodup_setInsert s x hs)

/-- A fold whose step preserves distinctness preserves distinctness. -/
lemma nodup_foldl_step {β : Type} (step : List String → β → List String)
    (hstep : ∀ s b, s.Nodup → (step s b).Nodup) :
    ∀ (l : List β) (s : List String), s.Nodup → (l.foldl step s).Nodup
  | [], _, hs => hs
  | b :: l, s, hs => nodup_foldl_step step hstep l (step s b) (hstep s b hs)

/-- Local listings are duplicate-free. -/
lemma nodup_localNames (g : GlobalFS) (p : List String) :
    (localNames g p).Nodup := by
  unfold localNames
  apply nodup_foldl_step
  · intro s b hs
    split
    · exact nodup_setInsert _ _ hs
    · exact hs
  · apply nodup_foldl_step
    · intro s b hs
      split
      · exact nodup_setInsert _ _ hs
      · exact hs
    · exact List.nodup_nil

/-- C8 counterexample: at the mount root with an empty local directory and
an empty (ok) remote listing, `listdir` returns the injected sentinel name
`.dagshub-streaming`, which is in neither the local nor the remote set —
so the result is not exactly the union of the two. -/
theorem c8_counterexample :
    (fsListdir c9fs c9g [] ⟨true, ["m"]⟩ []).1 = .ok [".dagshub-streaming"]
    ∧ localNames c9g ["m"] = []
    ∧ c9fs.remoteList [] = .resp 200 [] := by
  refine ⟨?_, ?_, ?_⟩
  · rfl
  · rfl
  · rfl

/-- C8 (amended): for a directory inside the mount, not under a reserved
prefix, whose remote listing succeeds, `listdir` returns the union of the
locally present names (empty when the directory is locally absent) and
the remote basenames, plus — exactly when the directory is the mount
root — the sentinel name, with each name appearing exactly once. -/
theorem c8_listdir_union (fs : FSConfig) (g : GlobalFS) (cwd : List String)
    (path : MPath) (rel : List String) (dirtree : DirTree) (s : Nat)
    (entries : List RemoteEntry)
    (hrel : relativePath fs cwd path = some rel)
    (hpass : passthroughPath rel = false)
    (hresp : fs.remoteList rel = .resp s entries)
    (hs : s < 400) :
    ∃ names, (fsListdir fs g cwd path dirtree).1 = .ok names
      ∧ names.Nodup
      ∧ (∀ x, x ∈ names ↔
          x ∈ (if (fs.root ++ rel) ∈ g.dirs then localNames g (fs.root ++ rel) else [])
          ∨ x ∈ entries.map (fun e => e.name)
          ∨ (rel = [] ∧ x = specialName)) := by
  have hbase :
      (if decide ((fs.root ++ rel) ∈ g.dirs) = true then localNames g (fs.root ++ rel) else [])
        = (if (fs.root ++ rel) ∈ g.dirs then localNames g (fs.root ++ rel) else []) := by
    by_cases hmem : (fs.root ++ rel) ∈ g.dirs
    · simp [hmem]
    · simp [hmem]
  refine ⟨(entries.map (fun e => e.name)).foldl setInsert
    (if rel = [] then
      setInsert (if (fs.root ++ rel) ∈ g.dirs then localNames g (fs.root ++ rel) else [])
        specialName
     else (if (fs.root ++ rel) ∈ g.dirs then localNames g (fs.root ++ rel) else [])),
    ?_, ?_, ?_⟩
  · unfold fsListdir
    rw [hrel]
    simp only [hpass, Bool.false_eq_true, if_false]
    rw [hresp]
    simp only [hs, if_true, hbase]
  · have hb : (if (fs.root ++ rel) ∈ g.dirs then localNames g (fs.root ++ rel) else []).Nodup := by
      by_cases hmem : (fs.root ++ rel) ∈ g.dirs
      · simp only [hmem, if_true]
        exact nodup_localNames g (fs.root ++ rel)
      · simp [hmem]
    apply nodup_foldl_setInsert
    by_cases hr : rel = []
    · subst hr
      rw [if_pos rfl]
      exact nodup_setInsert _ _ hb
    · rw [if_neg hr]
      exact hb
  · intro x
    rw [mem_foldl_setInsert]
    by_cases hr : rel = []
    · subst hr
      rw [if_pos rfl, mem_setInsert]
      constructor
      · rintro ((h | rfl) | h)
        · exact Or.inl h
        · exact Or.inr (Or.inr ⟨rfl, rfl⟩)
        · exact Or.inr (Or.inl h)
      · rintro (h | h | ⟨-, rfl⟩)
        · exact Or.inl (Or.inl h)
        · exact Or.inr h
        · exact Or.inl (Or.inr rfl)
    · rw [if_neg hr]
      constructor
      · rintro (h | h)
        · exact Or.inl h
        · exact Or.inr (Or.inl h)
      · rintro (h | h | ⟨hrr, -⟩)
        · exact Or.inl h
        · exact Or.inr h
        · exact absurd hrr hr

/-- C8 witness: `listdir("/r/d")` is the duplicate-free union of local
`{x.txt}` and remote `{y.txt, d2}`, without the sentinel. -/
theorem c8_listdir_union_witness :
    ∃ names, (fsListdir c8fs c8g [] ⟨true, ["r", "d"]⟩ []).1 = .ok names
      ∧ names.Nodup
      ∧ (∀ x, x ∈ names ↔
          x ∈ (if (["r", "d"] : List String) ∈ c8g.dirs then localNames c8g ["r", "d"] else [])
          ∨ x ∈ ([⟨"y.txt", false⟩, ⟨"d2", true⟩] : List RemoteEntry).map (fun e => e.name)
          ∨ ((["d"] : List String) = [] ∧ x = specialName)) :=
  c8_listdir_union c8fs c8g [] ⟨true, ["r", "d"]⟩ ["d"] [] 200
    [⟨"y.txt", false⟩, ⟨"d2", true⟩] rfl rfl rfl (by decide)

/-- Two predicates that agree on a list find the same first hit there. -/
lemma listFindCongr {α : Type} (p q : α → Bool) (l : List α)
    (hagree : ∀ x ∈ l, p x = q x) : l.find? p = l.find? q := by
  induction l with
  | nil => rfl
  | cons x xs ih =>
    have hx := hagree x (List.mem_cons_self x xs)
    unfold List.find?
    rw [hx]
    cases q x
    · exact ih (fun y hy => hagree y (List.mem_cons_of_mem x hy))
    · rfl

/-- Two predicates that agree on a list take the same prefix of it. -/
lemma listTakeWhileCongr {α : Type} (p q : α → Bool) (l : List α)
    (hagree : ∀ x ∈ l, p x = q x) : l.takeWhile p = l.takeWhile q := by
  induction l with
  | nil => rfl
  | cons x xs ih =>
    have hx := hagree x (List.mem_cons_self x xs)
    unfold List.takeWhile
    rw [hx]
    cases q x
    · rfl
    · rw [ih (fun y hy => hagree y (List.mem_cons_of_mem x hy))]

/-- Erasing a different token does not change acceptance. -/
lemma isGoodTok_erase (gs : List DToken) (t u : DToken) (h : u ≠ t) :
    isGoodTok (gs.erase t) u = isGoodTok gs u := by
  unfold isGoodTok
  rw [decide_eq_decide.mpr (List.mem_erase_of_ne h)]

/-- Acceptance is stable on a list the erased token is not in. -/
lemma isGoodTok_erase_eq_on (gs : List DToken) (t : DToken) (qs : List DToken)
    (h : t ∉ qs) : ∀ u ∈ qs, isGoodTok (gs.erase t) u = isGoodTok gs u :=
  fun u hu => isGoodTok_erase gs t u (fun he => h (he ▸ hu))

/-- The retrieval loop, characterized declaratively: on a duplicate-free
queue it returns the first acceptable token (not expired, and known good
or valid), the live token list with the rejected prefix erased, and the
known-good set with the rejected prefix erased plus the winner when it was
freshly validated. -/
lemma getLoop_eq :
    ∀ (queue : List DToken), queue.Nodup →
    ∀ (tokens goodSet : List DToken),
      getLoop queue tokens goodSet =
        (queue.find? (isGoodTok goodSet),
         (queue.takeWhile (fun t => !isGoodTok goodSet t)).foldl
            (fun acc t => acc.erase t) tokens,
         (match queue.find? (isGoodTok goodSet) with
          | some g =>
            if g ∈ (queue.takeWhile (fun t => !isGoodTok goodSet t)).foldl
                (fun acc t => acc.erase t) goodSet
            then (queue.takeWhile (fun t => !isGoodTok goodSet t)).foldl
                (fun acc t => acc.erase t) goodSet
            else g :: (queue.takeWhile (fun t => !isGoodTok goodSet t)).foldl
                (fun acc t => acc.erase t) goodSet
          | none => (queue.takeWhile (fun t => !isGoodTok goodSet t)).foldl
              (fun acc t => acc.erase t) goodSet)) := by
  intro queue
  induction queue with
  | nil => intro _ tokens goodSet; rfl
  | cons t qs ih =>
    intro hN tokens goodSet
    have htq : t ∉ qs := (List.nodup_cons.mp hN).1
    have hNq : qs.Nodup := (List.nodup_cons.mp hN).2
    have hcong := isGoodTok_erase_eq_on goodSet t qs htq
    have hfind : qs.find? (isGoodTok (goodSet.erase t)) = qs.find? (isGoodTok goodSet) :=
      listFindCongr _ _ qs hcong
    have htake : qs.takeWhile (fun u => !isGoodTok (goodSet.erase t) u)
        = qs.takeWhile (fun u => !isGoodTok goodSet u) :=
      listTakeWhileCongr _ _ qs (fun u hu => by rw [hcong u hu])
    by_cases hexp : t.expired
    · have hpt : isGoodTok goodSet t = false := by simp [isGoodTok, hexp]
      have hstep : getLoop (t :: qs) tokens goodSet
          = getLoop qs (tokens.erase t) (goodSet.erase t) := by
        simp only [getLoop]
        rw [if_pos hexp]
      rw [hstep, ih hNq (tokens.erase t) (goodSet.erase t), hfind, htake]
      have hfind2 : (t :: qs).find? (isGoodTok goodSet) = qs.find? (isGoodTok goodSet) := by
        rw [List.find?_cons, hpt]
      have htake2 : (t :: qs).takeWhile (fun u => !isGoodTok goodSet u)
          = t :: qs.takeWhile (fun u => !isGoodTok goodSet u) := by
        rw [List.takeWhile_cons, hpt]
        rfl
      rw [hfind2, htake2, List.foldl_cons, List.foldl_cons]
    · by_cases hmem : t ∈ goodSet
      · have hpt : isGoodTok goodSet t = true := by simp [isGoodTok, hexp, hmem]
        have hstep : getLoop (t :: qs) tokens goodSet = (some t, tokens, goodSet) := by
          simp only [getLoop]
          rw [if_neg hexp, if_pos hmem]
        have hfind2 : (t :: qs).find? (isGoodTok goodSet) = some t := by
          rw [List.find?_cons, hpt]
        have htake2 : (t :: qs).takeWhile (fun u => !isGoodTok goodSet u) = [] := by
          rw [List.takeWhile_cons, hpt]
          rfl
        rw [hstep, hfind2, htake2]
        simp [hmem]
      · by_cases hval : t.valid
        · have hpt : isGoodTok goodSet t = true := by simp [isGoodTok, hexp, hval]
          have hstep : getLoop (t :: qs) tokens goodSet = (some t, tokens, t :: goodSet) := by
            simp only [getLoop]
            rw [if_neg hexp, if_neg hmem, if_pos hval]
          have hfind2 : (t :: qs).find? (isGoodTok goodSet) = some t := by
            rw [List.find?_cons, hpt]
          have htake2 : (t :: qs).takeWhile (fun u => !isGoodTok goodSet u) = [] := by
            rw [List.takeWhile_cons, hpt]
            rfl
          rw [hstep, hfind2, htake2]
          simp [hmem]
        · have hpt : isGoodTok goodSet t = false := by
            simp [isGoodTok, hexp, hmem, hval]
          have hstep : getLoop (t :: qs) tokens goodSet
              = getLoop qs (tokens.erase t) (goodSet.erase t) := by
            simp only [getLoop]
            rw [if_neg hexp, if_neg hmem, if_neg hval]
          rw [hstep, ih hNq (tokens.erase t) (goodSet.erase t), hfind, htake]
          have hfind2 : (t :: qs).find? (isGoodTok goodSet)
              = qs.find? (isGoodTok goodSet) := by
            rw [List.find?_cons, hpt]
          have htake2 : (t :: qs).takeWhile (fun u => !isGoodTok goodSet u)
              = t :: qs.takeWhile (fun u => !isGoodTok goodSet u) := by
            rw [List.takeWhile_cons, hpt]
            rfl
          rw [hfind2, htake2, List.foldl_cons, List.foldl_cons]

/-- Priority insertion is a permutation. -/
lemma insertByPriority_perm (t : DToken) :
    ∀ l : List DToken, (insertByPriority t l).Perm (t :: l)
  | [] => List.Perm.refl _
  | x :: xs => by
    unfold insertByPriority
    split
    · exact List.Perm.refl _
    · exact ((insertByPriority_perm t xs).cons x).trans (List.Perm.swap t x xs)

/-- The priority sort is a permutation of its input. -/
lemma sortTokens_perm : ∀ l : List DToken, (sortTokens l).Perm l
  | [] => List.Perm.refl _
  | t :: ts =>
    (insertByPriority_perm t (sortTokens ts)).trans ((sortTokens_perm ts).cons t)

/-- The priority sort keeps a duplicate-free list duplicate-free. -/
lemma sortTokens_nodup (l : List DToken) (h : l.Nodup) : (sortTokens l).Nodup :=
  (sortTokens_perm l).nodup_iff.mpr h

/-- C2: `get_token_object` coincides with the algorithm exactly as the
claim words it (environment-variable shortcut never persisted; ascending
priority iteration; expired tokens removed and invalid tokens removed
from the persistent cache until the first known-good or validating token
is returned and marked known good; on no survivor either the error or the
persisted, known-good OAuth token), for every state in which the cached token list of the host holds no duplicate token object. -/
theorem c2_get_token_object_follows_claim (st : TokenState)
    (envToken : Option String) (configHost host : String) (fail : Bool)
    (oauthToken : DToken)
    (hN : ((st.cache.lookup host).getD []).Nodup) :
    get_token_object st envToken configHost host fail oauthToken =
      get_token_object_claimed st envToken configHost host fail oauthToken := by
  unfold get_token_object get_token_object_claimed
  by_cases he : host = configHost ∧ envToken.isSome
  · rw [if_pos he, if_pos he]
  · rw [if_neg he, if_neg he]
    have hsN : (sortTokens ((st.cache.lookup host).getD [])).Nodup :=
      sortTokens_nodup _ hN
    simp only [getLoop_eq _ hsN]
    rcases hfind : List.find? (isGoodTok ((List.lookup host st.knownGood).getD []))
        (sortTokens ((List.lookup host st.cache).getD [])) with _ | g
    · simp only [hfind]
    · simp only [hfind]

/-- C2 witness: the code model and the claimed algorithm agree on a
concrete single-token state. -/
theorem c2_get_token_object_follows_claim_witness :
    get_token_object c2state none "h" "h" false c2oauth =
      get_token_object_claimed c2state none "h" "h" false c2oauth :=
  c2_get_token_object_follows_claim c2state none "h" "h" false c2oauth (by decide)

end DagsHub
